import Mathlib

/-!
Verification of `grub-core/disk/loopbackx.c`: a shallow embedding of the
loopbackx virtual-disk module (device registry, create/delete command,
disk open geometry, and the chained read path), with theorems checking the
natural-language specification against the code.

Machine integers (`grub_size_t`, `grub_off_t`, `unsigned long`) are 64-bit
unsigned in the reference environment; they are modelled as `Nat` with
arithmetic reduced `% 2 ^ 64` wherever the C code can wrap.
-/

namespace Loopbackx

/-- Width of `grub_size_t` / `grub_off_t` / `unsigned long`: 2^64. -/
def W : Nat := 18446744073709551616

/-- C unsigned 64-bit subtraction `a - b` for operands below `W`
(wraps around on underflow, as in the source's `total -= n`). -/
def usub64 (a b : Nat) : Nat := (W + a - b) % W

/-- GRUB_DISK_SECTOR_BITS (sector size is 512 = 1 << 9 bytes). -/
def GRUB_DISK_SECTOR_BITS : Nat := 9

/-- GRUB_DISK_SECTOR_SIZE. -/
def GRUB_DISK_SECTOR_SIZE : Nat := 512

/-- Modelled from the spec: `GRUB_DISK_CACHE_BITS` is an external header
constant (not part of this repository); its exact value only affects the
fixed `max_agglomerate` cap ("512 MiB" policy), which no claim depends on. -/
def GRUB_DISK_CACHE_BITS : Nat := 6

/-- MAXCHAINFILES: hard bound on the number of backing files of a device. -/
def MAXCHAINFILES : Nat := 4

/-- GRUB_FILE_SIZE_UNKNOWN = (grub_off_t) -1: sentinel for an unknown file size. -/
def GRUB_FILE_SIZE_UNKNOWN : Nat := W - 1

/-- GRUB_DISK_SIZE_UNKNOWN: sentinel for an unknown disk size (in sectors). -/
def GRUB_DISK_SIZE_UNKNOWN : Nat := W - 1

/-- An open backing file handle (`grub_file_t`), as far as this module
observes it: its byte contents, whether its length is known
(`file->size != GRUB_FILE_SIZE_UNKNOWN`), and whether a read on it fails
at the file-access layer (sets `grub_errno` and delivers nothing). -/
structure GrubFile where
  data : List Nat
  sizeKnown : Bool
  readFails : Bool
deriving DecidableEq

/-- `file->size`: the byte length for a known-length file, or the
`GRUB_FILE_SIZE_UNKNOWN` sentinel. -/
def GrubFile.size (f : GrubFile) : Nat :=
  if f.sizeKnown then f.data.length else GRUB_FILE_SIZE_UNKNOWN

/-- `grub_err_t` kinds appearing in this module; `FILE_LAYER` stands for
error codes propagated from the external file-access layer. -/
inductive GrubErrKind
  | BAD_ARGUMENT
  | BAD_DEVICE
  | UNKNOWN_DEVICE
  | NOT_IMPLEMENTED_YET
  | OUT_OF_MEMORY
  | FILE_LAYER (code : Nat)
deriving DecidableEq

/-- An error as produced by `grub_error (kind, msg)`. -/
structure GrubErr where
  kind : GrubErrKind
  msg : String
deriving DecidableEq

/-- `struct grub_loopbackx`: a registered device (the `next` pointer is the
list structure of the registry). -/
structure Device where
  devname : String
  files : List GrubFile
  id : Nat
deriving DecidableEq

/-- The module's global state: `loopback_list` (head = most recently
created) and `last_id`. -/
structure LoopState where
  loopback_list : List Device
  last_id : Nat
deriving DecidableEq

/-- Outcome of one command invocation: the new global state, the returned
`grub_err_t` (`none` = `GRUB_ERR_NONE`), and the file handles opened and
closed during the call (for resource accounting). -/
structure CmdResult where
  s' : LoopState
  err : Option GrubErr
  opened : List GrubFile
  closed : List GrubFile
deriving DecidableEq

/-- The unlink loop of `delete_loopbackx`: find the first device with the
given name and remove it from the list (`*prev = dev->next`). -/
def removeNamed (name : String) : List Device → Option (Device × List Device)
  | [] => none
  | d :: ds =>
    if d.devname = name then some (d, ds)
    else (removeNamed name ds).map fun p => (p.1, d :: p.2)

/-- `delete_loopbackx`: delete the loopback device NAME; closes all of the
device's files (in descending index order) and frees it. -/
def delete_loopbackx (name : String) (s : LoopState) : CmdResult :=
  match removeNamed name s.loopback_list with
  | none => ⟨s, some ⟨.BAD_DEVICE, "device not found"⟩, [], []⟩
  | some (dev, rest) => ⟨⟨rest, s.last_id⟩, none, [], dev.files.reverse⟩

/-- The open loop of `grub_cmd_loopbackx` (`for (i = 1; i < argc; i++)`):
open each path in order; on the first failure return the failing
`grub_errno` together with the files opened so far (`files[0..nfiles)`). -/
def openFiles (env : String → Except GrubErr GrubFile) :
    List String → List GrubFile → Except (GrubErr × List GrubFile) (List GrubFile)
  | [], acc => .ok acc
  | p :: ps, acc =>
    match env p with
    | .error e => .error (e, acc)
    | .ok f => openFiles env ps (acc ++ [f])

/-- `grub_cmd_loopbackx`: the command to add and remove loopback devices.
`env` is the file-access layer's `grub_file_open`; `mallocOk` / `strdupOk`
model the success of `grub_malloc` / `grub_strdup` (failure sets
`grub_errno` to out-of-memory and takes the `fail` path, which closes every
file opened during this call). -/
def grub_cmd_loopbackx (env : String → Except GrubErr GrubFile)
    (mallocOk strdupOk : Bool) (deleteFlag : Bool) (args : List String)
    (s : LoopState) : CmdResult :=
  match args with
  | [] => ⟨s, some ⟨.BAD_ARGUMENT, "device name required"⟩, [], []⟩
  | name :: rest =>
    if deleteFlag then delete_loopbackx name s
    else if rest.length < 1 then
      ⟨s, some ⟨.BAD_ARGUMENT, "filename expected"⟩, [], []⟩
    else if rest.length > MAXCHAINFILES then
      ⟨s, some ⟨.BAD_ARGUMENT, "too many filenames expected"⟩, [], []⟩
    else if s.loopback_list.any (fun d => d.devname == name) then
      ⟨s, some ⟨.BAD_ARGUMENT, "device name already exists"⟩, [], []⟩
    else
      match openFiles env rest [] with
      | .error (e, opened) => ⟨s, some e, opened, opened⟩
      | .ok files =>
        if !mallocOk then ⟨s, some ⟨.OUT_OF_MEMORY, "out of memory"⟩, files, files⟩
        else if !strdupOk then ⟨s, some ⟨.OUT_OF_MEMORY, "out of memory"⟩, files, files⟩
        else ⟨⟨⟨name, files, s.last_id⟩ :: s.loopback_list, (s.last_id + 1) % W⟩,
              none, files, []⟩

/-- One command invocation with all of its inputs. -/
structure CmdCall where
  env : String → Except GrubErr GrubFile
  mallocOk : Bool
  strdupOk : Bool
  deleteFlag : Bool
  args : List String

/-- Run one command invocation. -/
def runCall (c : CmdCall) (s : LoopState) : CmdResult :=
  grub_cmd_loopbackx c.env c.mallocOk c.strdupOk c.deleteFlag c.args s

/-- The ids of the devices created by the successful create calls of a
command sequence, in creation order (read off the head of the registry
right after each successful non-delete call). -/
def idsAssigned : LoopState → List CmdCall → List Nat
  | _, [] => []
  | s, c :: cs =>
    (if c.deleteFlag = false ∧ (runCall c s).err = none then
      ((runCall c s).s'.loopback_list.head?.elim [] fun d => [d.id])
    else []) ++ idsAssigned (runCall c s).s' cs

/-- The disk geometry fields set by `grub_loopbackx_open`. -/
structure DiskGeom where
  total_sectors : Nat
  max_agglomerate : Nat
  id : Nat
deriving DecidableEq

/-- The size-aggregation loop of `grub_loopbackx_open`: walks the chain
carrying (`disk->total_sectors`, `alldata`); a file of unknown size sets
the unknown sentinel and breaks. -/
def openSizeLoop : Nat → Nat → List GrubFile → Nat × Nat
  | ts, alldata, [] => (ts, alldata)
  | ts, alldata, f :: fs =>
    if f.size = GRUB_FILE_SIZE_UNKNOWN then (GRUB_DISK_SIZE_UNKNOWN, alldata)
    else openSizeLoop ts ((alldata + f.size) % W) fs

/-- `grub_loopbackx_open`: look up the device by name and derive the disk
geometry (aggregate size in sectors, fixed agglomeration cap, device id). -/
def grub_loopbackx_open (s : LoopState) (name : String) : Except GrubErr DiskGeom :=
  match s.loopback_list.find? (fun d => d.devname == name) with
  | none => .error ⟨.UNKNOWN_DEVICE, "can't open device"⟩
  | some dev =>
    let p := openSizeLoop 0 0 dev.files
    let ts := if p.1 ≠ GRUB_DISK_SIZE_UNKNOWN
      then ((p.2 + (GRUB_DISK_SECTOR_SIZE - 1)) % W) / GRUB_DISK_SECTOR_SIZE
      else p.1
    .ok ⟨ts, 1 <<< (29 - GRUB_DISK_SECTOR_BITS - GRUB_DISK_CACHE_BITS), dev.id⟩

/-- Trace of the read loop of `grub_loopbackx_read`:
`out` is the image of the output buffer cells the loop advanced over
(`some b` = byte written, `none` = cell skipped without being written);
`errno` records whether `grub_errno` was set by a file read;
`reads` lists each `grub_file_seek`+`grub_file_read` issued as
(file, seek offset, requested length `n`);
`leftover` is the value of `total` when the loop exits. -/
structure ReadTrace where
  out : List (Option Nat)
  errno : Bool
  reads : List (GrubFile × Nat × Nat)
  leftover : Nat
deriving DecidableEq

/-- The chain-walk loop of `grub_loopbackx_read`
(`for (i = 0; i < nfiles && total != 0; i++)`), byte-addressed:
`spos` is the running byte cursor, `total` the remaining byte count.
When `spos < file->size`, the code sets `epos = spos + file->size` and,
if `epos > file->size`, reads `n = file->size - spos` bytes, else
`n = total` bytes (transcribed as in the source); the buffer pointer
advances by `n` regardless of how many bytes the file layer delivered,
and `total -= n` is unsigned arithmetic. The file layer's
`grub_file_read` delivers `min n (file->size - offset)` bytes from the
seek offset, or nothing when it fails. -/
def readLoop : Nat → Nat → List GrubFile → ReadTrace
  | _, total, [] => ⟨[], false, [], total⟩
  | spos, total, f :: fs =>
    if total = 0 then ⟨[], false, [], total⟩
    else if spos < f.size then
      let n := if (spos + f.size) % W > f.size then f.size - spos else total
      let written : List Nat :=
        if f.readFails then [] else (f.data.drop spos).take (min n (f.size - spos))
      let rest := readLoop 0 (usub64 total n) fs
      ⟨written.map some ++ List.replicate (n - written.length) none ++ rest.out,
       f.readFails || rest.errno,
       (f, spos, n) :: rest.reads,
       rest.leftover⟩
    else
      readLoop (spos - f.size) total fs

/-- Result of a whole `grub_loopbackx_read` call: the output buffer image,
whether an error was returned, and the file reads issued. -/
structure ReadResult where
  out : List (Option Nat)
  err : Bool
  reads : List (GrubFile × Nat × Nat)
deriving DecidableEq

/-- `grub_loopbackx_read` after the sector-to-byte conversion: run the
chain walk; if `grub_errno` is set return it, otherwise zero-fill the
leftover tail (`grub_memset (buf, 0, total)`) and return success. -/
def grub_loopbackx_read_bytes (files : List GrubFile) (spos total : Nat) : ReadResult :=
  let t := readLoop spos total files
  if t.errno then ⟨t.out, true, t.reads⟩
  else ⟨t.out ++ List.replicate t.leftover (some 0), false, t.reads⟩

/-- `grub_loopbackx_read`: converts `sector`/`size` to bytes by
`<< GRUB_DISK_SECTOR_BITS` in `grub_size_t` arithmetic and runs the walk. -/
def grub_loopbackx_read (files : List GrubFile) (sector nsectors : Nat) : ReadResult :=
  grub_loopbackx_read_bytes files ((sector <<< GRUB_DISK_SECTOR_BITS) % W)
    ((nsectors <<< GRUB_DISK_SECTOR_BITS) % W)

/-- Sum of the `file->size` fields of a chain. -/
def sizesSum (fs : List GrubFile) : Nat := (fs.map GrubFile.size).sum

/-- The logical concatenation of the chain's byte contents. -/
def chainData (fs : List GrubFile) : List Nat := (fs.map GrubFile.data).flatten

/-- The files successfully opened by `env` on a path list, in order. -/
def okFiles (env : String → Except GrubErr GrubFile) (ps : List String) : List GrubFile :=
  ps.filterMap fun q => match env q with | .ok f => some f | .error _ => none

/-- A 10-byte backing file with bytes 10..19. -/
def file10 : GrubFile := ⟨[10, 11, 12, 13, 14, 15, 16, 17, 18, 19], true, false⟩

/-- A 20-byte backing file with bytes 20..39. -/
def file20 : GrubFile :=
  ⟨[20, 21, 22, 23, 24, 25, 26, 27, 28, 29, 30, 31, 32, 33, 34, 35, 36, 37, 38, 39],
   true, false⟩

/-- A 10-byte backing file whose reads fail at the file-access layer. -/
def file10bad : GrubFile := ⟨[1, 1, 1, 1, 1, 1, 1, 1, 1, 1], true, true⟩

/-- A 1025-byte backing file (contents all 7). -/
def bigfile : GrubFile := ⟨List.replicate 1025 7, true, false⟩

/-- A backing file of unknown length. -/
def fileUnknown : GrubFile := ⟨[], false, false⟩

/-- A file-open error propagated from the file layer. -/
def errNoFile : GrubErr := ⟨.FILE_LAYER 0, "no such file"⟩

/-- A file layer on which every open succeeds. -/
def envAll : String → Except GrubErr GrubFile := fun _ => .ok file10

/-- A file layer on which only the path "good" opens. -/
def envOne : String → Except GrubErr GrubFile :=
  fun q => if q = "good" then .ok file10 else .error errNoFile

/-- A file layer on which every open fails. -/
def envNone : String → Except GrubErr GrubFile := fun _ => .error errNoFile

/-- A create invocation of device `nm` with one backing file. -/
def callCreate (nm : String) : CmdCall := ⟨envAll, true, true, false, [nm, "f"]⟩

/-- A create invocation whose file open fails. -/
def callCreateBad (nm : String) : CmdCall := ⟨envNone, true, true, false, [nm, "f"]⟩

/-- A delete invocation of device `nm`. -/
def callDelete (nm : String) : CmdCall := ⟨envAll, true, true, true, [nm]⟩

/-- A registry holding one device "d" (created with id 0). -/
def stateD : LoopState := ⟨[⟨"d", [], 0⟩], 1⟩

/-- A registry holding device "a" (chain 10+20 bytes, all known) and device
"u" (chain containing a file of unknown length). -/
def stateAB : LoopState :=
  ⟨[⟨"a", [file10, file20], 0⟩, ⟨"u", [file10, fileUnknown, file20], 1⟩], 2⟩

/-! ## Helper lemmas -/

theorem usub64_of_le {a b : Nat} (hba : b ≤ a) (ha : a < W) : usub64 a b = a - b := by
  unfold usub64
  have h1 : W + a - b = W + (a - b) := by omega
  rw [h1, Nat.add_mod_left, Nat.mod_eq_of_lt (by omega)]

theorem sizesSum_nil : sizesSum [] = 0 := rfl

theorem sizesSum_cons (f : GrubFile) (fs : List GrubFile) :
    sizesSum (f :: fs) = f.size + sizesSum fs := by
  simp [sizesSum]

theorem sizesSum_append (l₁ l₂ : List GrubFile) :
    sizesSum (l₁ ++ l₂) = sizesSum l₁ + sizesSum l₂ := by
  simp [sizesSum]

theorem chainData_append (l₁ l₂ : List GrubFile) :
    chainData (l₁ ++ l₂) = chainData l₁ ++ chainData l₂ := by
  simp [chainData]

theorem chainData_length (fs : List GrubFile) (h : ∀ f ∈ fs, f.sizeKnown = true) :
    (chainData fs).length = sizesSum fs := by
  induction fs with
  | nil => rfl
  | cons f fs ih =>
    have hf : f.sizeKnown = true := h f (List.mem_cons_self f fs)
    have hs : f.size = f.data.length := by simp [GrubFile.size, hf]
    simp [chainData, sizesSum] at ih ⊢
    rw [ih (fun g hg => h g (List.mem_cons_of_mem f hg)), hs]

theorem readLoop_append_skip (fs₁ fs₂ : List GrubFile) :
    ∀ spos total, sizesSum fs₁ ≤ spos →
      readLoop spos total (fs₁ ++ fs₂) = readLoop (spos - sizesSum fs₁) total fs₂ := by
  induction fs₁ with
  | nil => intro spos total _; simp [sizesSum_nil]
  | cons f fs₁ ih =>
    intro spos total h
    rw [sizesSum_cons] at h
    by_cases h0 : total = 0
    · subst h0
      cases fs₂ with
      | nil => simp [readLoop]
      | cons g gs => simp [readLoop]
    · have hns : ¬ spos < f.size := by omega
      rw [List.cons_append]
      rw [show readLoop spos total (f :: (fs₁ ++ fs₂)) =
            readLoop (spos - f.size) total (fs₁ ++ fs₂) by
          simp [readLoop, h0, hns]]
      rw [ih (spos - f.size) total (by omega), sizesSum_cons]
      congr 1
      omega

theorem readLoop_errno_eq_any (fs : List GrubFile) :
    ∀ spos total, (readLoop spos total fs).errno =
      (readLoop spos total fs).reads.any fun r => r.1.readFails := by
  induction fs with
  | nil => intro spos total; simp [readLoop]
  | cons f fs ih =>
    intro spos total
    by_cases h0 : total = 0
    · simp [readLoop, h0]
    · by_cases hs : spos < f.size
      · simp [readLoop, h0, hs, ih]
      · simp [readLoop, h0, hs, ih]

theorem openFiles_failure (env : String → Except GrubErr GrubFile)
    (p : String) (rest : List String) (e : GrubErr) (hfail : env p = .error e) :
    ∀ ps : List String, (∀ q ∈ ps, ∃ f, env q = .ok f) → ∀ acc,
      openFiles env (ps ++ p :: rest) acc = .error (e, acc ++ okFiles env ps) := by
  intro ps
  induction ps with
  | nil =>
    intro _ acc
    simp [openFiles, hfail, okFiles]
  | cons q ps ih =>
    intro hok acc
    obtain ⟨f, hf⟩ := hok q (List.mem_cons_self q ps)
    have h1 : openFiles env ((q :: ps) ++ p :: rest) acc =
        openFiles env (ps ++ p :: rest) (acc ++ [f]) := by
      simp [openFiles, hf]
    rw [h1, ih (fun r hr => hok r (List.mem_cons_of_mem q hr)) (acc ++ [f])]
    simp [okFiles, hf]

theorem openSizeLoop_known (fs : List GrubFile) :
    ∀ ts acc, acc < W → (∀ f ∈ fs, f.size ≠ GRUB_FILE_SIZE_UNKNOWN) →
      openSizeLoop ts acc fs = (ts, (acc + sizesSum fs) % W) := by
  induction fs with
  | nil =>
    intro ts acc hacc _
    simp [openSizeLoop, sizesSum_nil, Nat.mod_eq_of_lt hacc]
  | cons f fs ih =>
    intro ts acc hacc hk
    have hf : ¬ f.size = GRUB_FILE_SIZE_UNKNOWN := hk f (List.mem_cons_self f fs)
    have hWpos : 0 < W := by decide
    rw [show openSizeLoop ts acc (f :: fs) = openSizeLoop ts ((acc + f.size) % W) fs by
          simp [openSizeLoop, hf],
        ih ts ((acc + f.size) % W) (Nat.mod_lt _ hWpos)
          (fun g hg => hk g (List.mem_cons_of_mem f hg)),
        sizesSum_cons, Nat.mod_add_mod, Nat.add_assoc]

theorem openSizeLoop_unknown (fs : List GrubFile) :
    ∀ ts acc, (∃ f ∈ fs, f.size = GRUB_FILE_SIZE_UNKNOWN) →
      (openSizeLoop ts acc fs).1 = GRUB_DISK_SIZE_UNKNOWN := by
  induction fs with
  | nil =>
    intro ts acc h
    obtain ⟨f, hf, _⟩ := h
    cases hf
  | cons g fs ih =>
    intro ts acc h
    by_cases hg : g.size = GRUB_FILE_SIZE_UNKNOWN
    · simp [openSizeLoop, hg]
    · obtain ⟨f, hf, hs⟩ := h
      rcases List.mem_cons.mp hf with rfl | hf'
      · exact absurd hs hg
      · rw [show openSizeLoop ts acc (g :: fs) = openSizeLoop ts ((acc + g.size) % W) fs by
              simp [openSizeLoop, hg]]
        exact ih ts ((acc + g.size) % W) ⟨f, hf', hs⟩

theorem runCall_cases (c : CmdCall) (s : LoopState) :
    (¬(c.deleteFlag = false ∧ (runCall c s).err = none) ∧
     (runCall c s).s'.last_id = s.last_id) ∨
    ((c.deleteFlag = false ∧ (runCall c s).err = none) ∧
     (runCall c s).s'.last_id = (s.last_id + 1) % W ∧
     ((runCall c s).s'.loopback_list.head?.elim [] fun d => [d.id]) = [s.last_id]) := by
  obtain ⟨env, m, k, flag, args⟩ := c
  simp only [runCall]
  cases args with
  | nil => left; simp [grub_cmd_loopbackx]
  | cons name rest =>
    cases flag with
    | true =>
      left
      have hdel : grub_cmd_loopbackx env m k true (name :: rest) s =
          delete_loopbackx name s := by
        simp [grub_cmd_loopbackx]
      rw [hdel]
      refine ⟨by simp, ?_⟩
      unfold delete_loopbackx
      rcases removeNamed name s.loopback_list with _ | ⟨d, ds⟩ <;> rfl
    | false =>
      by_cases h1 : rest.length < 1
      · left; simp [grub_cmd_loopbackx, h1]
      · by_cases h2 : rest.length > MAXCHAINFILES
        · left; simp [grub_cmd_loopbackx, h1, h2]
        · by_cases h3 : s.loopback_list.any (fun d => d.devname == name) = true
          · left; simp [grub_cmd_loopbackx, h1, h2, h3]
          · rcases ho : openFiles env rest [] with ⟨e, opened⟩ | files
            · left; simp [grub_cmd_loopbackx, h1, h2, h3, ho]
            · cases m with
              | false => left; simp [grub_cmd_loopbackx, h1, h2, h3, ho]
              | true =>
                cases k with
                | false => left; simp [grub_cmd_loopbackx, h1, h2, h3, ho]
                | true => right; simp [grub_cmd_loopbackx, h1, h2, h3, ho]

theorem idsAssigned_eq_range' (cs : List CmdCall) :
    ∀ s : LoopState, s.last_id + (idsAssigned s cs).length ≤ W →
      idsAssigned s cs = List.range' s.last_id (idsAssigned s cs).length := by
  induction cs with
  | nil => intro s _; rfl
  | cons c cs ih =>
    intro s h
    rcases runCall_cases c s with ⟨hno, hlid⟩ | ⟨hyes, hlid, hhead⟩
    · rw [idsAssigned, if_neg hno, List.nil_append] at h ⊢
      have ht := ih (runCall c s).s' (by rw [hlid]; exact h)
      rw [ht, hlid]
      simp [List.length_range']
    · rw [idsAssigned, if_pos hyes, hhead, List.singleton_append, List.length_cons] at h ⊢
      by_cases hlt : s.last_id + 1 < W
      · have hmod : (s.last_id + 1) % W = s.last_id + 1 := Nat.mod_eq_of_lt hlt
        have ht := ih (runCall c s).s' (by rw [hlid, hmod]; omega)
        rw [List.range'_succ]
        congr 1
        rw [ht, hlid, hmod]
        simp [List.length_range']
      · have hT0 : (idsAssigned (runCall c s).s' cs).length = 0 := by omega
        rw [List.length_eq_zero.mp hT0]
        simp [List.range'_one]

/-! ## Claim theorems -/

/-- Claim C7 counterexample: with a chain whose first file's read fails,
the call does return the error, but the chain walk is not aborted: the
second backing file is still read (a seek+read of 15 bytes at offset 0 on
`file20` is issued after the failing read). The claim's "no further
backing files are read" is false. -/
theorem read_error_no_abort_cx :
    (grub_loopbackx_read_bytes [file10bad, file20] 5 20).err = true ∧
    (file20, 0, 15) ∈ (grub_loopbackx_read_bytes [file10bad, file20] 5 20).reads := by
  decide

/-- Claim C7 (amended): an I/O error on a backing file is surfaced to the
caller: the call returns an error exactly when some issued file read
failed (and then the zero-fill is skipped); but the walk does not abort
early, so subsequent backing files may still be read before the error is
returned. -/
theorem read_error_surfaced (files : List GrubFile) (spos total : Nat) :
    (grub_loopbackx_read_bytes files spos total).err =
      (grub_loopbackx_read_bytes files spos total).reads.any fun r => r.1.readFails := by
  have h := readLoop_errno_eq_any files spos total
  unfold grub_loopbackx_read_bytes
  by_cases he : (readLoop spos total files).errno <;> simp [he, ← h]

/-- Claim C8: a create call (in-contract: one device name and 1..MAXCHAINFILES
paths) whose name already exists in the registry fails with the
duplicate-device error (`GRUB_ERR_BAD_ARGUMENT`, "device name already
exists"), no file is opened, and the state is unchanged. -/
theorem create_duplicate_rejected (env : String → Except GrubErr GrubFile)
    (m k : Bool) (s : LoopState) (name : String) (paths : List String)
    (hlo : 1 ≤ paths.length) (hhi : paths.length ≤ MAXCHAINFILES)
    (hdup : ∃ d ∈ s.loopback_list, d.devname = name) :
    grub_cmd_loopbackx env m k false (name :: paths) s =
      ⟨s, some ⟨.BAD_ARGUMENT, "device name already exists"⟩, [], []⟩ := by
  have hany : s.loopback_list.any (fun d => d.devname == name) = true := by
    rw [List.any_eq_true]
    obtain ⟨d, hd, he⟩ := hdup
    exact ⟨d, hd, by simp [he]⟩
  have hn1 : ¬ paths.length < 1 := by omega
  have hn4 : ¬ paths.length > MAXCHAINFILES := by omega
  simp [grub_cmd_loopbackx, hn1, hn4, hany]

/-- Claim C8 witness: creating "d" with one file path while "d" is
registered fails with the duplicate error and leaves the state unchanged. -/
theorem create_duplicate_rejected_witness :
    grub_cmd_loopbackx envAll true true false ["d", "f"] stateD =
      ⟨stateD, some ⟨.BAD_ARGUMENT, "device name already exists"⟩, [], []⟩ :=
  create_duplicate_rejected envAll true true stateD "d" ["f"] (by decide) (by decide)
    ⟨⟨"d", [], 0⟩, by decide, rfl⟩

/-- Claim C4: if, during a create call, opening the i-th path fails (all
earlier paths open fine), the call returns the originating open error,
every file opened earlier in the attempt is closed (closed = opened), and
the state — registry and id counter — is unchanged. -/
theorem create_open_failure_atomic (env : String → Except GrubErr GrubFile)
    (m k : Bool) (s : LoopState) (name : String)
    (ps : List String) (p : String) (rest : List String) (e : GrubErr)
    (hok : ∀ q ∈ ps, ∃ f, env q = .ok f)
    (hfail : env p = .error e)
    (hlen : ps.length + 1 + rest.length ≤ MAXCHAINFILES)
    (hdup : ∀ d ∈ s.loopback_list, d.devname ≠ name) :
    grub_cmd_loopbackx env m k false (name :: (ps ++ p :: rest)) s =
      ⟨s, some e, okFiles env ps, okFiles env ps⟩ := by
  have hany : s.loopback_list.any (fun d => d.devname == name) = false := by
    rw [List.any_eq_false]
    intro d hd
    simp [hdup d hd]
  have hlen1 : ¬ (ps ++ p :: rest).length < 1 := by
    simp
  have hlen4 : ¬ MAXCHAINFILES < ps.length + (rest.length + 1) := by omega
  have hopen := openFiles_failure env p rest e hfail ps hok []
  simp [grub_cmd_loopbackx, hlen1, hlen4, hany, hopen]

/-- Claim C4 witness: a chain ["good", "bad"] where "good" opens and "bad"
fails: the call fails with the open error, the one opened file is closed,
and the empty registry stays empty. -/
theorem create_open_failure_atomic_witness :
    grub_cmd_loopbackx envOne true true false ["n", "good", "bad"] ⟨[], 0⟩ =
      ⟨⟨[], 0⟩, some errNoFile, okFiles envOne ["good"], okFiles envOne ["good"]⟩ :=
  create_open_failure_atomic envOne true true ⟨[], 0⟩ "n" ["good"] "bad" [] errNoFile
    (fun q hq => by
      rw [List.mem_singleton] at hq
      subst hq
      exact ⟨file10, by simp [envOne]⟩)
    (by simp [envOne])
    (by decide)
    (fun d hd => absurd hd (List.not_mem_nil d))

/-- Claim C3: `open` on a registered device aggregates the chain sizes:
if every backing file has a known length, `total_sectors` is the sum of
the lengths rounded up to whole sectors (`ceil(sum / 512)`, computed as
`(sum + 511) / 512`); if any backing file has unknown length,
`total_sectors` is the unknown-size sentinel — and this holds whatever
files follow the unknown one (the walk stops there). -/
theorem open_size_aggregation (s : LoopState) (name : String) (dev : Device)
    (hfind : s.loopback_list.find? (fun d => d.devname == name) = some dev) :
    ((∀ f ∈ dev.files, f.size ≠ GRUB_FILE_SIZE_UNKNOWN) →
      sizesSum dev.files + (GRUB_DISK_SECTOR_SIZE - 1) < W →
      ∃ g, grub_loopbackx_open s name = .ok g ∧
        g.total_sectors =
          (sizesSum dev.files + (GRUB_DISK_SECTOR_SIZE - 1)) / GRUB_DISK_SECTOR_SIZE) ∧
    (∀ pre f tail, dev.files = pre ++ f :: tail →
      f.size = GRUB_FILE_SIZE_UNKNOWN →
      ∃ g, grub_loopbackx_open s name = .ok g ∧
        g.total_sectors = GRUB_DISK_SIZE_UNKNOWN) := by
  constructor
  · intro hk hb
    have h1 : openSizeLoop 0 0 dev.files = (0, sizesSum dev.files % W) := by
      have h := openSizeLoop_known dev.files 0 0 (by decide) hk
      simpa using h
    have hm1 : sizesSum dev.files % W = sizesSum dev.files :=
      Nat.mod_eq_of_lt (by omega)
    have hm2 : (sizesSum dev.files + (GRUB_DISK_SECTOR_SIZE - 1)) % W =
        sizesSum dev.files + (GRUB_DISK_SECTOR_SIZE - 1) := Nat.mod_eq_of_lt hb
    have hne : (0 : Nat) ≠ GRUB_DISK_SIZE_UNKNOWN := by decide
    have hopen : grub_loopbackx_open s name = .ok
        ⟨(sizesSum dev.files + (GRUB_DISK_SECTOR_SIZE - 1)) / GRUB_DISK_SECTOR_SIZE,
         1 <<< (29 - GRUB_DISK_SECTOR_BITS - GRUB_DISK_CACHE_BITS), dev.id⟩ := by
      simp [grub_loopbackx_open, hfind, h1, hm1, hm2, hne]
    exact ⟨_, hopen, rfl⟩
  · intro pre f tail hdev hf
    have h1 : (openSizeLoop 0 0 dev.files).1 = GRUB_DISK_SIZE_UNKNOWN :=
      openSizeLoop_unknown dev.files 0 0
        ⟨f, by rw [hdev]; exact List.mem_append_right _ (List.mem_cons_self f tail), hf⟩
    have hopen : grub_loopbackx_open s name = .ok
        ⟨GRUB_DISK_SIZE_UNKNOWN,
         1 <<< (29 - GRUB_DISK_SECTOR_BITS - GRUB_DISK_CACHE_BITS), dev.id⟩ := by
      simp [grub_loopbackx_open, hfind, h1]
    exact ⟨_, hopen, rfl⟩

/-- Claim C3 witness: device "a" has known chain sizes 10 + 20, so
`total_sectors = (30 + 511) / 512`; device "u" contains a file of unknown
length, so `total_sectors` is the unknown sentinel. -/
theorem open_size_aggregation_witness :
    (∃ g, grub_loopbackx_open stateAB "a" = .ok g ∧
      g.total_sectors = (sizesSum [file10, file20] + (GRUB_DISK_SECTOR_SIZE - 1)) /
        GRUB_DISK_SECTOR_SIZE) ∧
    (∃ g, grub_loopbackx_open stateAB "u" = .ok g ∧
      g.total_sectors = GRUB_DISK_SIZE_UNKNOWN) := by
  constructor
  · exact (open_size_aggregation stateAB "a" ⟨"a", [file10, file20], 0⟩
      (by decide)).1 (by decide) (by decide)
  · exact (open_size_aggregation stateAB "u" ⟨"u", [file10, fileUnknown, file20], 1⟩
      (by decide)).2 [file10] fileUnknown [file20] rfl (by decide)

/-- Claim C9 counterexample: in delete mode with TWO positional arguments
(["d", "x"], device "d" registered), the call succeeds (no error) and
deletes "d" — it does not fail with `BadArgument` as the claim states. -/
theorem delete_extra_args_cx :
    (grub_cmd_loopbackx envAll true true true ["d", "x"] stateD).err = none ∧
    (grub_cmd_loopbackx envAll true true true ["d", "x"] stateD).s' = ⟨[], 1⟩ := by
  decide

/-- Claim C9 (amended): delete mode requires at least one positional
argument: with zero positional arguments the call fails with
`BadArgument` ("device name required"); with one or more, the first names
the device to delete and all extra positional arguments are ignored (the
call behaves exactly as if only the first argument were given). -/
theorem delete_mode_args (env : String → Except GrubErr GrubFile) (m k : Bool)
    (s : LoopState) :
    grub_cmd_loopbackx env m k true [] s =
      ⟨s, some ⟨.BAD_ARGUMENT, "device name required"⟩, [], []⟩ ∧
    ∀ (a : String) (rest : List String),
      grub_cmd_loopbackx env m k true (a :: rest) s =
        grub_cmd_loopbackx env m k true [a] s := by
  exact ⟨rfl, fun a rest => rfl⟩

/-- Claim C5: on a device of two backing files of 10 and 20 bytes, reading
the byte range [5, 25) delivers bytes [5,10) of file 1 followed by bytes
[0,15) of file 2, with no error: exactly one seek+read per file, of 5 and
15 bytes. -/
theorem read_across_boundary (f1 f2 : GrubFile)
    (h1 : f1.data.length = 10) (h2 : f2.data.length = 20)
    (k1 : f1.sizeKnown = true) (k2 : f2.sizeKnown = true)
    (r1 : f1.readFails = false) (r2 : f2.readFails = false) :
    grub_loopbackx_read_bytes [f1, f2] 5 20 =
      ⟨(f1.data.drop 5 ++ f2.data.take 15).map some, false,
       [(f1, 5, 5), (f2, 0, 15)]⟩ := by
  have s1 : f1.size = 10 := by simp [GrubFile.size, k1, h1]
  have s2 : f2.size = 20 := by simp [GrubFile.size, k2, h2]
  have mu1 : usub64 20 5 = 15 := by decide
  have mu2 : usub64 15 15 = 0 := by decide
  have t1 : (f1.data.drop 5).take 5 = f1.data.drop 5 :=
    List.take_of_length_le (by simp [h1])
  have l1 : (f1.data.drop 5).length = 5 := by simp [h1]
  have l2 : (f2.data.take 15).length = 15 := by simp [h2]
  simp [grub_loopbackx_read_bytes, readLoop, s1, s2, r1, r2, mu1, mu2, W,
    t1, l1, l2]

/-- Claim C2 counterexample: on one 10-byte backing file, reading byte
range [5, 20) succeeds and delivers bytes [5,10) followed by TEN zero
bytes, not the five the claim states (the range has 15 bytes, of which the
file covers 5). Moreover the general part of the claim is also false: the
past-the-end read [0, 20) on the same file succeeds but its unread tail is
left unwritten (`none` cells) instead of being zero-filled. -/
theorem zero_fill_claim_cx :
    ((grub_loopbackx_read_bytes [file10] 5 15).err = false ∧
     (grub_loopbackx_read_bytes [file10] 5 15).out =
       (file10.data.drop 5).map some ++ List.replicate 10 (some 0) ∧
     (grub_loopbackx_read_bytes [file10] 5 15).out ≠
       (file10.data.drop 5).map some ++ List.replicate 5 (some 0)) ∧
    ((grub_loopbackx_read_bytes [file10] 0 20).err = false ∧
     (grub_loopbackx_read_bytes [file10] 0 20).out =
       file10.data.map some ++ List.replicate 10 none) := by
  decide

/-- Claim C2 (amended): a read whose byte range extends past the end of the
chain succeeds and its unread tail is zero-filled, provided the range
starts strictly inside the last file of the chain or at/after the end of
the chain; in particular, on one 10-byte file, reading [5, 20) returns
bytes [5,10) of the file followed by 10 zero bytes. -/
theorem read_zero_fill_tail (fs₁ : List GrubFile) (g : GrubFile) (spos total : Nat)
    (hknown : ∀ f ∈ fs₁ ++ [g], f.sizeKnown = true)
    (hfail : g.readFails = false)
    (hstart : sizesSum fs₁ < spos ∨ sizesSum (fs₁ ++ [g]) ≤ spos)
    (hpast : sizesSum (fs₁ ++ [g]) < spos + total)
    (hW : spos + g.size < W) (htW : total < W) :
    (grub_loopbackx_read_bytes (fs₁ ++ [g]) spos total).err = false ∧
    (grub_loopbackx_read_bytes (fs₁ ++ [g]) spos total).out =
      ((chainData (fs₁ ++ [g])).drop spos).map some ++
        List.replicate (total - (sizesSum (fs₁ ++ [g]) - spos)) (some 0) := by
  have hsz : sizesSum (fs₁ ++ [g]) = sizesSum fs₁ + g.size := by
    rw [sizesSum_append, sizesSum_cons, sizesSum_nil]
    omega
  have hlenall : (chainData (fs₁ ++ [g])).length = sizesSum (fs₁ ++ [g]) :=
    chainData_length _ hknown
  by_cases hS : sizesSum (fs₁ ++ [g]) ≤ spos
  · -- the whole chain is skipped: every cursor-skip applies, total survives,
    -- and the final memset zero-fills the entire request
    have e1 : readLoop spos total (fs₁ ++ [g]) = ⟨[], false, [], total⟩ := by
      have h := readLoop_append_skip (fs₁ ++ [g]) [] spos total hS
      rw [List.append_nil] at h
      rw [h]
      rfl
    have hdrop : (chainData (fs₁ ++ [g])).drop spos = [] :=
      List.drop_eq_nil_of_le (by omega)
    have hcount : total - (sizesSum (fs₁ ++ [g]) - spos) = total := by omega
    rw [hdrop, hcount]
    simp [grub_loopbackx_read_bytes, e1]
  · -- the read resumes strictly inside the last file g
    have hP : sizesSum fs₁ < spos := by
      rcases hstart with h | h
      · exact h
      · exact absurd h hS
    have hg : g.sizeKnown = true := hknown g (by simp)
    have hgsize : g.size = g.data.length := by simp [GrubFile.size, hg]
    have hc2 : spos - sizesSum fs₁ < g.size := by omega
    have h0 : ¬ total = 0 := by omega
    have hmod : (spos - sizesSum fs₁ + g.size) % W = spos - sizesSum fs₁ + g.size :=
      Nat.mod_eq_of_lt (by omega)
    have hcond : g.size < spos - sizesSum fs₁ + g.size := by omega
    have hwr : (g.data.drop (spos - sizesSum fs₁)).take (g.size - (spos - sizesSum fs₁)) =
        g.data.drop (spos - sizesSum fs₁) :=
      List.take_of_length_le (by rw [List.length_drop]; omega)
    have hwl : (g.data.drop (spos - sizesSum fs₁)).length =
        g.size - (spos - sizesSum fs₁) := by
      rw [List.length_drop]; omega
    have hus : usub64 total (g.size - (spos - sizesSum fs₁)) =
        total - (g.size - (spos - sizesSum fs₁)) :=
      usub64_of_le (by omega) htW
    have e1 : readLoop spos total (fs₁ ++ [g]) =
        readLoop (spos - sizesSum fs₁) total [g] :=
      readLoop_append_skip fs₁ [g] spos total (by omega)
    have e2 : readLoop (spos - sizesSum fs₁) total [g] =
        ⟨(g.data.drop (spos - sizesSum fs₁)).map some, false,
         [(g, spos - sizesSum fs₁, g.size - (spos - sizesSum fs₁))],
         total - (g.size - (spos - sizesSum fs₁))⟩ := by
      simp [readLoop, h0, hc2, hmod, hcond, hfail, Nat.min_self, hwr, hwl, hus]
    have hdrop : (chainData (fs₁ ++ [g])).drop spos =
        g.data.drop (spos - sizesSum fs₁) := by
      rw [chainData_append, List.drop_append_eq_append_drop,
        List.drop_eq_nil_of_le (le_of_lt (by
          rw [chainData_length fs₁ (fun f hf => hknown f (List.mem_append_left _ hf))]
          exact hP)),
        chainData_length fs₁ (fun f hf => hknown f (List.mem_append_left _ hf))]
      simp [chainData]
    have hcount : total - (sizesSum (fs₁ ++ [g]) - spos) =
        total - (g.size - (spos - sizesSum fs₁)) := by omega
    rw [hdrop, hcount]
    simp [grub_loopbackx_read_bytes, e1, e2]

/-- Claim C2 (amended) witness: one 10-byte file, byte range [5, 20):
bytes [5,10) of the file then 10 zero bytes, no error. -/
theorem read_zero_fill_tail_witness :
    (grub_loopbackx_read_bytes [file10] 5 15).err = false ∧
    (grub_loopbackx_read_bytes [file10] 5 15).out =
      ((chainData [file10]).drop 5).map some ++
        List.replicate (15 - (sizesSum [file10] - 5)) (some 0) :=
  read_zero_fill_tail [] file10 5 15 (by decide) rfl (Or.inl (by decide))
    (by decide) (by decide) (by decide)

set_option maxRecDepth 100000 in
/-- Claim C1: the chain walk does NOT read
`min(bytes_still_needed, file_length - running_cursor)` bytes. On a device
with one 1025-byte backing file, reading sector 1, count 1 (bytes
[512, 1024), so 512 bytes still needed) issues a single file read of 513
bytes — `file_length - cursor` — because the code computes
`epos = spos + file->size` (instead of `spos + total`) and compares it to
`file->size`; the remaining count then underflows and the zero-fill pass
floods the buffer: the call's buffer image has length 2^64 + 512 instead
of the 512 requested bytes. -/
theorem read_not_min_chunk_bug :
    (grub_loopbackx_read [bigfile] 1 1).reads = [(bigfile, 512, 513)] ∧
    min 512 (bigfile.size - 512) = 512 ∧
    (grub_loopbackx_read [bigfile] 1 1).out.length = W + 512 := by
  have hspos : (1 <<< GRUB_DISK_SECTOR_BITS) % W = 512 := by decide
  have hloop : readLoop 512 512 [bigfile] =
      ⟨(List.replicate 513 (7 : Nat)).map some, false, [(bigfile, 512, 513)],
       W - 1⟩ := by
    decide
  have hread : grub_loopbackx_read [bigfile] 1 1 =
      ⟨(List.replicate 513 (7 : Nat)).map some ++ List.replicate (W - 1) (some 0),
       false, [(bigfile, 512, 513)]⟩ := by
    rw [grub_loopbackx_read, hspos, grub_loopbackx_read_bytes, hloop]
    rfl
  refine ⟨by rw [hread], by decide, ?_⟩
  rw [hread]
  have hW1 : 1 ≤ W := by decide
  simp only [List.length_append, List.length_map, List.length_replicate]
  omega

/-- Claim C5 witness: the concrete 10- and 20-byte files. -/
theorem read_across_boundary_witness :
    grub_loopbackx_read_bytes [file10, file20] 5 20 =
      ⟨(file10.data.drop 5 ++ file20.data.take 15).map some, false,
       [(file10, 5, 5), (file20, 0, 15)]⟩ :=
  read_across_boundary file10 file20 rfl rfl rfl rfl rfl rfl

/-- Claim C6: over any command sequence run from the initial state (empty
registry, `last_id = 0`), the ids assigned to successively created devices
are pairwise strictly increasing — so an id is never reassigned, even
across delete/create cycles that reuse a name. (The hypothesis bounds the
sequence by the 2^64 width of the id counter.) -/
theorem ids_strictly_monotone (cs : List CmdCall)
    (h : (idsAssigned ⟨[], 0⟩ cs).length ≤ W) :
    (idsAssigned ⟨[], 0⟩ cs).Pairwise (fun a b => a < b) := by
  have hr := idsAssigned_eq_range' cs ⟨[], 0⟩ (by simpa using h)
  rw [hr]
  exact List.pairwise_lt_range' _ _

/-- Claim C6 witness: create "a", create "b", delete "a", create "a"
again — the assigned ids are pairwise increasing. -/
theorem ids_strictly_monotone_witness :
    (idsAssigned ⟨[], 0⟩
      [callCreate "a", callCreate "b", callDelete "a", callCreate "a"]).Pairwise
      (fun a b => a < b) :=
  ids_strictly_monotone [callCreate "a", callCreate "b", callDelete "a", callCreate "a"]
    (by decide)

/-- Claim C10: a create call that fails (for any reason) leaves the global
id counter unchanged, and consequently, over any command sequence run from
the initial state, the assigned ids are exactly the consecutive integers
0, 1, 2, ... in creation order, with no gaps. (The bound hypothesis is the
2^64 width of the id counter.) -/
theorem create_ids_consecutive (cs : List CmdCall)
    (h : (idsAssigned ⟨[], 0⟩ cs).length ≤ W) :
    (∀ (c : CmdCall) (s : LoopState), c.deleteFlag = false →
      (runCall c s).err ≠ none → (runCall c s).s'.last_id = s.last_id) ∧
    idsAssigned ⟨[], 0⟩ cs = List.range (idsAssigned ⟨[], 0⟩ cs).length := by
  constructor
  · intro c s hflag herr
    rcases runCall_cases c s with ⟨_, hlid⟩ | ⟨⟨_, heq⟩, _, _⟩
    · exact hlid
    · exact absurd heq herr
  · rw [List.range_eq_range']
    exact idsAssigned_eq_range' cs ⟨[], 0⟩ (by simpa using h)

/-- Claim C10 witness: a failing create between two successful ones leaves
the counter untouched and the assigned ids are [0, 1] = range 2. -/
theorem create_ids_consecutive_witness :
    (runCall (callCreateBad "c") ⟨[], 5⟩).s'.last_id = 5 ∧
    idsAssigned ⟨[], 0⟩ [callCreate "a", callCreateBad "c", callCreate "b"] =
      List.range (idsAssigned ⟨[], 0⟩
        [callCreate "a", callCreateBad "c", callCreate "b"]).length := by
  constructor
  · exact (create_ids_consecutive [] (by decide)).1 (callCreateBad "c") ⟨[], 5⟩ rfl
      (by decide)
  · exact (create_ids_consecutive
      [callCreate "a", callCreateBad "c", callCreate "b"] (by decide)).2

end Loopbackx
